import Mathlib

/-!
Shallow embedding of the interactive `docker run` TUI editor
(`runTUIModel` and its `Update`/`View` functions, the parameter catalog,
and the final commit step of `runTUI`).

Conventions of the embedding:
* Go strings are modelled by `String`; the edit buffer, which the source
  slices byte-wise, is modelled by `List Char` (the source assumes
  single-byte-per-character cursor math, so character lists and byte
  slices agree on the ASCII inputs the editor handles).
* Go `int` fields (`selectedParameter`, `cursorPosition`) are modelled by
  `Int`, so that negative values the source can produce are representable.
* Operations that panic in Go (out-of-range slice indexing) return `none`.
* A `tea.KeyMsg` is modelled by the string `msg.String()` it dispatches on;
  `tea.Quit` is modelled by a `Bool` in the update result.
-/

structure runParamType where
  name : String
  splitOn : String := ""
  editableIndex : Nat := 0
deriving DecidableEq, Repr

def volumeParam : runParamType := { name := "--volume", splitOn := ":", editableIndex := 0 }

def nameParam : runParamType := { name := "--name" }

def entrypointParam : runParamType := { name := "--entrypoint" }

def envVarParam : runParamType := { name := "--env", splitOn := "=", editableIndex := 1 }

def portParam : runParamType := { name := "-p", splitOn := ":", editableIndex := 0 }

structure runParam where
  paramType : runParamType
  value : String := ""
  valueOptions : List String := []
deriving DecidableEq, Repr

def interactiveFlag : String := "--interactive"

def ttyFlag : String := "--tty"

def detachFlag : String := "--detach"

structure runTUIModel where
  imageName : String := ""
  runParams : List runParam := []
  runFlags : List String := []
  selectedParameter : Int := 0
  editingParameter : Bool := false
  parameterParts : Option (List String) := none
  editValue : List Char := []
  cursorPosition : Int := 0
  err : Option String := none
deriving DecidableEq, Repr

inductive TeaMsg where
  | errMsg (e : String)
  | keyMsg (key : String)
deriving DecidableEq, Repr

def isAlnumChar (c : Char) : Bool :=
  ('a' ≤ c && c ≤ 'z') || ('A' ≤ c && c ≤ 'Z') || ('0' ≤ c && c ≤ '9')

def isAlnumKey (k : String) : Bool :=
  match k.data with
  | c :: _ => isAlnumChar c
  | [] => false

/-- One step of the event loop: the `Update` method of `runTUIModel`.
Returns `none` where the Go code would panic (out-of-range indexing);
the `Bool` is `true` when the step issues `tea.Quit`. -/
def runTUIModel.Update (m : runTUIModel) (msg : TeaMsg) : Option (runTUIModel × Bool) :=
  match msg with
  | .errMsg e => some ({ m with err := some e }, true)
  | .keyMsg key =>
    if m.editingParameter then
      if key = "enter" ∨ key = "tab" then
        if m.selectedParameter < 0 then none
        else
          match m.runParams.get? m.selectedParameter.toNat with
          | none => none
          | some currentParam =>
            let newValue? : Option String :=
              if currentParam.paramType.splitOn ≠ "" then
                match m.parameterParts with
                | none => none
                | some parts =>
                  if currentParam.paramType.editableIndex < parts.length then
                    some (String.intercalate currentParam.paramType.splitOn
                      (parts.set currentParam.paramType.editableIndex (String.mk m.editValue)))
                  else none
              else some (String.mk m.editValue)
            match newValue? with
            | none => none
            | some v0 =>
              let v := if v0 = "" then
                  match currentParam.valueOptions with
                  | [] => v0
                  | o :: _ => o
                else v0
              let sel := if key = "tab" then
                  (if m.selectedParameter < (m.runParams.length : Int) - 1 then
                    m.selectedParameter + 1
                  else 0)
                else m.selectedParameter
              some ({ m with
                runParams := m.runParams.set m.selectedParameter.toNat
                  { currentParam with value := v },
                editingParameter := false,
                editValue := [],
                parameterParts := none,
                cursorPosition := 0,
                selectedParameter := sel }, false)
      else if key = "esc" then
        some ({ m with editingParameter := false, editValue := [], cursorPosition := 0 }, false)
      else if key = "backspace" then
        if 0 < m.cursorPosition then
          if m.cursorPosition ≤ (m.editValue.length : Int) then
            some ({ m with
              editValue := m.editValue.take (m.cursorPosition - 1).toNat
                ++ m.editValue.drop m.cursorPosition.toNat,
              cursorPosition := m.cursorPosition - 1 }, false)
          else none
        else some (m, false)
      else if key = "left" then
        if 0 < m.cursorPosition then
          some ({ m with cursorPosition := m.cursorPosition - 1 }, false)
        else some (m, false)
      else if key = "right" then
        if m.cursorPosition < (m.editValue.length : Int) then
          some ({ m with cursorPosition := m.cursorPosition + 1 }, false)
        else some (m, false)
      else
        if key.utf8ByteSize = 1 then
          if 0 ≤ m.cursorPosition ∧ m.cursorPosition ≤ (m.editValue.length : Int) then
            some ({ m with
              editValue := m.editValue.take m.cursorPosition.toNat
                ++ key.data ++ m.editValue.drop m.cursorPosition.toNat,
              cursorPosition := m.cursorPosition + 1 }, false)
          else none
        else some (m, false)
    else
      if key = "ctrl+c" ∨ key = "esc" then some (m, true)
      else if key = "enter" then some (m, true)
      else if key = "left" ∨ key = "up" ∨ key = "shift+tab" then
        if 0 < m.selectedParameter then
          some ({ m with selectedParameter := m.selectedParameter - 1 }, false)
        else
          some ({ m with selectedParameter := (m.runParams.length : Int) - 1 }, false)
      else if key = "right" ∨ key = "down" ∨ key = "tab" then
        if m.selectedParameter < (m.runParams.length : Int) - 1 then
          some ({ m with selectedParameter := m.selectedParameter + 1 }, false)
        else
          some ({ m with selectedParameter := 0 }, false)
      else
        if key.utf8ByteSize = 1 ∧ isAlnumKey key then
          if m.selectedParameter < 0 then none
          else
            match m.runParams.get? m.selectedParameter.toNat with
            | none => none
            | some currentParam =>
              match (if currentParam.value = "" then currentParam.valueOptions.get? 0
                     else some currentParam.value) with
              | none => none
              | some seeded =>
                let parts := if currentParam.paramType.splitOn ≠ "" then
                    some (seeded.splitOn currentParam.paramType.splitOn)
                  else m.parameterParts
                some ({ m with
                  editingParameter := true,
                  parameterParts := parts,
                  editValue := m.editValue ++ key.data,
                  cursorPosition := ((m.editValue ++ key.data).length : Int) }, false)
        else some (m, false)

/-! ### The renderer (`View`) -/

def blueColor : String := "\x1b[94m"

def yellowColor : String := "\x1b[33;2m"

def resetColor : String := "\x1b[0m"

def grayColor : String := "\x1b[90m"

def cursorColor : String := "\x1b[7m"

def redColor : String := "\x1b[31m"

/-- Rendering of a single parameter at position `i` of the list, as in the
loop of `runTUIModel.View`. `none` where the Go code would panic. -/
def renderParam (m : runTUIModel) (i : Nat) (p : runParam) : Option String :=
  let displayValue := if p.value = "" then
      match p.valueOptions with
      | [] => p.value
      | o :: _ => o
    else p.value
  match (if p.value = "" then some false
         else match p.valueOptions with
              | [] => none
              | o :: _ => some (decide (p.value ≠ o))) with
  | none => none
  | some isEdited =>
    if (i : Int) = m.selectedParameter then
      if m.editingParameter then
        if 0 ≤ m.cursorPosition ∧ m.cursorPosition ≤ (m.editValue.length : Int) then
          let c := m.cursorPosition.toNat
          let beforeCursor := String.mk (m.editValue.take c)
          let cursorChar := if m.cursorPosition < (m.editValue.length : Int) then
              String.mk ((m.editValue.drop c).take 1)
            else " "
          let afterCursor := if m.cursorPosition < (m.editValue.length : Int) then
              String.mk (m.editValue.drop (c + 1))
            else String.mk (m.editValue.drop c)
          match m.parameterParts with
          | none =>
            some (p.paramType.name ++ " " ++ "" ++ blueColor ++ beforeCursor ++ cursorColor
              ++ cursorChar ++ blueColor ++ afterCursor ++ resetColor ++ grayColor
              ++ "" ++ resetColor)
          | some parts =>
            let idx := p.paramType.editableIndex
            if idx ≤ parts.length then
              let beforeEditedPart := String.intercalate p.paramType.splitOn (parts.take idx)
              let afterEditedPart := if idx + 1 < parts.length then
                  p.paramType.splitOn ++ String.intercalate p.paramType.splitOn (parts.drop (idx + 1))
                else ""
              some (p.paramType.name ++ " " ++ beforeEditedPart ++ blueColor ++ beforeCursor
                ++ cursorColor ++ cursorChar ++ blueColor ++ afterCursor ++ resetColor
                ++ grayColor ++ afterEditedPart ++ resetColor)
            else none
        else none
      else
        some (blueColor ++ p.paramType.name ++ " " ++ displayValue ++ resetColor)
    else if isEdited then
      some (yellowColor ++ p.paramType.name ++ " " ++ displayValue ++ resetColor)
    else
      some (p.paramType.name ++ " " ++ displayValue)

def renderParamsAux (m : runTUIModel) : Nat → List runParam → Option (List String)
  | _, [] => some []
  | i, p :: rest =>
    match renderParam m i p with
    | none => none
    | some s =>
      match renderParamsAux m (i + 1) rest with
      | none => none
      | some ss => some (s :: ss)

/-- The token list `commandParts` assembled by `View` before joining. -/
def commandParts (m : runTUIModel) : Option (List String) :=
  match renderParamsAux m 0 m.runParams with
  | none => none
  | some params =>
    let flagStrings := m.runFlags.map (fun f => grayColor ++ f ++ resetColor)
    some ([grayColor ++ "docker run" ++ resetColor] ++ flagStrings ++ params
      ++ [grayColor ++ m.imageName ++ resetColor])

/-- The line-continuation separator used when the command is too long. -/
def contSep : String := grayColor ++ " \\\n" ++ resetColor ++ "    "

def footerLegend (m : runTUIModel) : String :=
  "\n\n" ++ (if m.editingParameter then
      grayColor ++ "Enter: Confirm | Tab: Confirm and Next | Esc: Cancel" ++ resetColor
    else
      grayColor ++ "↑/↓/←/→: Navigate | Tab: Next | Type: Edit | Enter: Execute | Esc: Quit"
        ++ resetColor)

/-- The `View` method of `runTUIModel`. `none` where the Go code would panic. -/
def runTUIModel.View (m : runTUIModel) : Option String :=
  match m.err with
  | some e => some (redColor ++ e ++ "\n")
  | none =>
    match commandParts m with
    | none => none
    | some parts =>
      let command := String.intercalate " " parts
      let command := if 80 < command.length then String.intercalate contSep parts else command
      some (command ++ footerLegend m)

/-! ### Display width: length of a string with its ANSI color codes stripped -/

/-- Removes ANSI escape sequences of the form `ESC ... m` from a character
list; the flag records whether we are inside an escape sequence. -/
def stripAnsiAux : Bool → List Char → List Char
  | _, [] => []
  | true, c :: rest => if c = 'm' then stripAnsiAux false rest else stripAnsiAux true rest
  | false, c :: rest =>
    if c = Char.ofNat 27 then stripAnsiAux true rest else c :: stripAnsiAux false rest

/-- Number of display columns of a rendered string: its length after
stripping ANSI color escape sequences. -/
def displayWidth (s : String) : Nat := (stripAnsiAux false s.data).length

/-! ### Parameter catalog and initial model -/

/-- The per-image parameter catalog (`getParamOptions`); the Go map lookup
returns the empty list for unknown image names. -/
def getParamOptions (imageName : String) : List runParam :=
  if imageName = "alpine" then
    [ { paramType := nameParam, valueOptions := ["alpine-test", "evenCoolerName"] },
      { paramType := portParam, valueOptions := ["8080:80"] },
      { paramType := entrypointParam, valueOptions := ["/bin/ash"] } ]
  else if imageName = "postgres" then
    [ { paramType := nameParam, valueOptions := ["postgresDB", "evenCoolerName"] },
      { paramType := portParam, valueOptions := ["5432:5432"] },
      { paramType := volumeParam,
        valueOptions := ["postgres-data:/some/other/container/dir",
          "/yet/another/local/dir:/yet/another/container/dir"] },
      { paramType := envVarParam, valueOptions := ["POSTGRES_USER=test-user"] },
      { paramType := envVarParam, valueOptions := ["POSTGRES_PASSWORD=test-password"] },
      { paramType := envVarParam, valueOptions := ["POSTGRES_DB=test-db"] } ]
  else []

/-- The per-image boolean flag catalog (`getFlags`). -/
def getFlags (imageName : String) : List String :=
  if imageName = "alpine" then [interactiveFlag, ttyFlag]
  else if imageName = "postgres" then [detachFlag]
  else []

/-! ### External option structures written by the committer.

Modelled from the spec: `runOptions`, `containerOptions` and the pflag
`FlagSet` are defined outside the given source files; only the fields the
committer touches are modelled, with the list-valued setters (`volumes.Set`,
`env.Set`, `publish.Set`) modelled as appends and `FlagSet.Set` recorded as
an appended (name, value) call, per the spec's description of the setters. -/

structure runOptions where
  name : String := ""
  detach : Bool := false
deriving DecidableEq, Repr

structure containerOptions where
  Image : String := ""
  volumes : List String := []
  entrypoint : String := ""
  env : List String := []
  publish : List String := []
  stdin : Bool := false
  tty : Bool := false
deriving DecidableEq, Repr

structure FlagSet where
  setCalls : List (String × String) := []
deriving DecidableEq, Repr

/-- Constructs the TUI model (`initialModel`): catalog lookup for the image
of `copts`, then seeding of every empty value with its first option. -/
def initialModel (copts : containerOptions) : runTUIModel :=
  let runParams := (getParamOptions copts.Image).map (fun p =>
    if p.value = "" ∧ p.valueOptions ≠ [] then
      { p with value := p.valueOptions.headD "" }
    else p)
  { imageName := copts.Image,
    runParams := runParams,
    runFlags := getFlags copts.Image,
    selectedParameter := 0,
    editingParameter := false,
    editValue := [],
    cursorPosition := 0 }

/-- One parameter's commit in `runTUI`: the `switch param.paramType`
dispatch to exactly one external setter. -/
def commitParam (p : runParam) : runOptions × containerOptions → runOptions × containerOptions
  | (r, c) =>
    if p.paramType = nameParam then ({ r with name := p.value }, c)
    else if p.paramType = volumeParam then (r, { c with volumes := c.volumes ++ [p.value] })
    else if p.paramType = entrypointParam then (r, { c with entrypoint := p.value })
    else if p.paramType = envVarParam then (r, { c with env := c.env ++ [p.value] })
    else if p.paramType = portParam then (r, { c with publish := c.publish ++ [p.value] })
    else (r, c)

/-- One flag's commit in `runTUI`: the `switch flag` dispatch plus the
`flags.Set(string(flag), "true")` call. -/
def commitFlag (f : String) :
    FlagSet × runOptions × containerOptions → FlagSet × runOptions × containerOptions
  | (fl, r, c) =>
    let rc : runOptions × containerOptions :=
      if f = detachFlag then ({ r with detach := true }, c)
      else if f = interactiveFlag then (r, { c with stdin := true })
      else if f = ttyFlag then (r, { c with tty := true })
      else (r, c)
    ({ fl with setCalls := fl.setCalls ++ [(f, "true")] }, rc.1, rc.2)

/-- The tail of `runTUI` after the event loop: if the final model carries no
error, commit every parameter and flag into the external structures;
otherwise return them untouched together with the error. -/
def runTUIFinish (m : runTUIModel) (fl : FlagSet) (r : runOptions) (c : containerOptions) :
    FlagSet × runOptions × containerOptions × Option String :=
  if m.err = none then
    let rc := m.runParams.foldl (fun rc p => commitParam p rc) (r, c)
    let frc := m.runFlags.foldl (fun s f => commitFlag f s) (fl, rc.1, rc.2)
    (frc.1, frc.2.1, frc.2.2, none)
  else (fl, r, c, m.err)

/-! ### Concrete models used by witnesses and counterexamples -/

def c2Model : runTUIModel :=
  { editingParameter := true, editValue := ['a'], cursorPosition := 1 }

def c2Model' : runTUIModel :=
  { editingParameter := true, editValue := ['a', 'b'], cursorPosition := 2 }

def c5Model : runTUIModel :=
  { runParams := [{ paramType := volumeParam, value := "/a:/b", valueOptions := ["/a:/b"] }],
    selectedParameter := 0, editingParameter := true,
    parameterParts := some ["/a", "/b"], editValue := ['x'], cursorPosition := 1 }

def c1Model : runTUIModel :=
  { runParams := [{ paramType := volumeParam, value := "/a:/b", valueOptions := ["/x:/y"] }],
    selectedParameter := 0, editingParameter := true,
    parameterParts := some ["/a", "/b"], editValue := ['/', 'c'], cursorPosition := 2 }

def c1ModelF : runTUIModel :=
  { runParams := [
      { paramType := nameParam, value := "x",
        valueOptions := ["alpine-test", "evenCoolerName"] }],
    selectedParameter := 0, editingParameter := true, editValue := [], cursorPosition := 0 }

def c6Model : runTUIModel :=
  { runParams := [
      { paramType := nameParam, value := "", valueOptions := ["alpine-test"] }],
    selectedParameter := 0, editingParameter := false, editValue := [], cursorPosition := 0 }

def c8ParamA : runParam := { paramType := nameParam, value := "a", valueOptions := ["a"] }

def c8ParamB : runParam := { paramType := entrypointParam, value := "b", valueOptions := ["b"] }

def c8Browse0 : runTUIModel := { runParams := [c8ParamA, c8ParamB], selectedParameter := 0 }

def c8Browse1 : runTUIModel := { runParams := [c8ParamA, c8ParamB], selectedParameter := 1 }

def c8Edit1 : runTUIModel :=
  { runParams := [c8ParamA, c8ParamB], selectedParameter := 1, editingParameter := true,
    editValue := ['z'], cursorPosition := 1 }

def c10Empty : runTUIModel := { runParams := [] }

def c10NoCand : runTUIModel :=
  { runParams := [{ paramType := nameParam, value := "", valueOptions := [] }],
    selectedParameter := 0 }

def c3Model : runTUIModel := { imageName := String.mk (List.replicate 60 'z') }

def c3Long : runTUIModel := { imageName := String.mk (List.replicate 100 'z') }

def c3Short : runTUIModel := { imageName := "alpine" }

def c7ErrModel : runTUIModel :=
  { runParams := [{ paramType := nameParam, value := "n", valueOptions := ["n"] }],
    runFlags := [detachFlag], err := some "terminal failure" }

def c7OkModel : runTUIModel :=
  { runParams := [{ paramType := nameParam, value := "n", valueOptions := ["n"] }],
    runFlags := [detachFlag] }

/-! ### Theorems -/

/-- A key whose UTF-8 byte size is 1 is a single (ASCII) character. -/
theorem data_length_of_utf8ByteSize_one (k : String) (h : k.utf8ByteSize = 1) :
    k.length = 1 := by
  obtain ⟨l⟩ := k
  simp only [String.utf8ByteSize_mk] at h
  match l with
  | [] => simp at h
  | [c] => rfl
  | c₁ :: c₂ :: rest =>
    exfalso
    simp only [String.utf8Len_cons] at h
    have h1 := c₁.utf8Size_pos
    have h2 := c₂.utf8Size_pos
    omega

/-- C2: for every key event delivered to `Update` (insert, delete-left,
move-left, move-right, mode entry and exit), if the cursor satisfies
`0 ≤ cursor ≤ len(buffer)` before the event it still does after it; by
induction this holds after every event of every delivered sequence. -/
theorem cursor_invariant (m : runTUIModel) (msg : TeaMsg) (m' : runTUIModel) (q : Bool)
    (hinv : 0 ≤ m.cursorPosition ∧ m.cursorPosition ≤ (m.editValue.length : Int))
    (hup : m.Update msg = some (m', q)) :
    0 ≤ m'.cursorPosition ∧ m'.cursorPosition ≤ (m'.editValue.length : Int) := by
  cases msg with
  | errMsg e =>
    simp only [runTUIModel.Update, Option.some.injEq, Prod.mk.injEq] at hup
    obtain ⟨rfl, rfl⟩ := hup
    simpa using hinv
  | keyMsg key =>
    unfold runTUIModel.Update at hup
    repeat' split at hup
    all_goals simp only [Option.some.injEq, Prod.mk.injEq, reduceCtorEq] at hup
    all_goals (try obtain ⟨rfl, rfl⟩ := hup)
    all_goals simp_all [List.length_take, List.length_drop]
    all_goals (try omega)
    rename_i hk1
    have hk := data_length_of_utf8ByteSize_one _ hk1
    omega

/-- Witness for C2: inserting a character at the end of a one-character
buffer keeps the cursor in range. -/
theorem cursor_invariant_witness :
    0 ≤ c2Model'.cursorPosition ∧
      c2Model'.cursorPosition ≤ (c2Model'.editValue.length : Int) :=
  cursor_invariant c2Model (.keyMsg "b") c2Model' false (by decide) (by decide)

/-- C5 (amended): pressing cancel in editing mode resets the buffer and
cursor and returns to Browsing, leaving the parameter list (hence every
committed value) unchanged — but the pre-split segments field is left in
place, not discarded; moreover every editing-mode event other than the
confirm keys leaves the parameter list unchanged, so an arbitrary edit
session followed by cancel leaves every value as it was at entry. -/
theorem cancel_discards_edit (m : runTUIModel) (hedit : m.editingParameter = true) :
    m.Update (.keyMsg "esc") =
      some ({ m with editingParameter := false, editValue := [], cursorPosition := 0 }, false) ∧
    (∀ (key : String) (m' : runTUIModel) (q : Bool), key ≠ "enter" → key ≠ "tab" →
      m.Update (.keyMsg key) = some (m', q) → m'.runParams = m.runParams) := by
  constructor
  · show (if m.editingParameter = true then _ else _) = _
    rw [if_pos hedit, if_neg (by decide : ¬("esc" = "enter" ∨ "esc" = "tab")), if_pos rfl]
  · intro key m' q hk1 hk2 hup
    replace hup : (if m.editingParameter = true then _ else _) = some (m', q) := hup
    rw [if_pos hedit, if_neg (not_or.mpr ⟨hk1, hk2⟩)] at hup
    repeat' split at hup
    all_goals simp only [Option.some.injEq, Prod.mk.injEq, reduceCtorEq] at hup
    all_goals (try obtain ⟨rfl, rfl⟩ := hup)
    all_goals rfl

/-- C5 counterexample: cancelling an edit of a composite parameter leaves
`parameterParts` holding the pre-split segments, so the edit session is not
entirely discarded as the claim states. -/
theorem cancel_counterexample :
    (c5Model.Update (.keyMsg "esc")).map (fun r => r.1.parameterParts) =
      some (some ["/a", "/b"]) ∧
    (some ["/a", "/b"] : Option (List String)) ≠ none := ⟨by decide, by decide⟩

/-- Witness for C5 (amended): the cancel equation and the frame property of
a backspace, at a concrete composite edit session. -/
theorem cancel_discards_edit_witness :
    c5Model.Update (.keyMsg "esc") =
      some ({ c5Model with
        editingParameter := false, editValue := [], cursorPosition := 0 }, false) ∧
    ({ c5Model with editValue := [], cursorPosition := 0 } : runTUIModel).runParams
      = c5Model.runParams := by
  refine ⟨(cancel_discards_edit c5Model rfl).1, ?_⟩
  exact (cancel_discards_edit c5Model rfl).2 "backspace"
    { c5Model with editValue := [], cursorPosition := 0 } false
    (by decide) (by decide) (by decide)

/-- C1: confirm-commit postcondition. In editing mode, pressing the confirm
key commits: when the selected parameter's type has a split separator, the
new value is the pre-split segments with the segment at `editableIndex`
replaced by the buffer, rejoined with the separator (all other segments
unchanged); otherwise the new value is the buffer itself; in both cases an
empty result falls back to the first candidate. -/
theorem confirm_commit (m : runTUIModel) (i : Nat) (p : runParam) (o : String) (os : List String)
    (hedit : m.editingParameter = true)
    (hsel : m.selectedParameter = (i : Int))
    (hp : m.runParams.get? i = some p)
    (hopts : p.valueOptions = o :: os) :
    (∀ parts : List String, p.paramType.splitOn ≠ "" → m.parameterParts = some parts →
      p.paramType.editableIndex < parts.length →
      m.Update (.keyMsg "enter") = some ({ m with
        runParams := m.runParams.set i { p with
          value :=
            let joined := String.intercalate p.paramType.splitOn
              (parts.set p.paramType.editableIndex (String.mk m.editValue))
            if joined = "" then o else joined },
        editingParameter := false, editValue := [], parameterParts := none,
        cursorPosition := 0 }, false)) ∧
    (p.paramType.splitOn = "" →
      m.Update (.keyMsg "enter") = some ({ m with
        runParams := m.runParams.set i { p with
          value := if String.mk m.editValue = "" then o else String.mk m.editValue },
        editingParameter := false, editValue := [], parameterParts := none,
        cursorPosition := 0 }, false)) := by
  have htn : m.selectedParameter.toNat = i := by rw [hsel]; simp
  have hsneg : ¬ m.selectedParameter < 0 := by rw [hsel]; simp
  constructor
  · intro parts hso hparts hidx
    show (if m.editingParameter = true then _ else _) = _
    rw [if_pos hedit, if_pos (by decide : ("enter" = "enter" ∨ "enter" = "tab")),
      if_neg hsneg, htn, hp]
    simp only [hparts, hopts, if_pos hidx, hsel]
    rw [if_pos hso]
    simp
  · intro hso
    show (if m.editingParameter = true then _ else _) = _
    rw [if_pos hedit, if_pos (by decide : ("enter" = "enter" ∨ "enter" = "tab")),
      if_neg hsneg, htn, hp]
    simp only [hso, hopts, hsel]
    simp

/-- Witness for C1: the composite round-trip: value `"/a:/b"` with buffer
`"/c"` and editable index 0 commits to `"/c:/b"`; an empty buffer for a
simple parameter with candidates `["alpine-test", "evenCoolerName"]` falls
back to `"alpine-test"`. -/
theorem confirm_commit_witness :
    (c1Model.Update (.keyMsg "enter")).map (fun r => r.1.runParams.map (fun p => p.value)) =
      some ["/c:/b"] ∧
    (c1ModelF.Update (.keyMsg "enter")).map (fun r => r.1.runParams.map (fun p => p.value)) =
      some ["alpine-test"] := by
  have h1 := (confirm_commit c1Model 0
    { paramType := volumeParam, value := "/a:/b", valueOptions := ["/x:/y"] }
    "/x:/y" [] (by rfl) (by rfl) (by rfl) (by rfl)).1 ["/a", "/b"] (by decide) (by rfl) (by decide)
  have h2 := (confirm_commit c1ModelF 0
    { paramType := nameParam, value := "x", valueOptions := ["alpine-test", "evenCoolerName"] }
    "alpine-test" ["evenCoolerName"] (by rfl) (by rfl) (by rfl) (by rfl)).2 (by rfl)
  rw [h1, h2]
  constructor <;> rfl

/-- C6: in Browsing mode, a single printable alphanumeric key enters
Editing for the selected parameter; the value used for composite splitting
is the parameter's value, seeded from the first candidate when empty; when
the type has a split separator that value is split into the segments; the
buffer becomes exactly the pressed character and the cursor is 1. -/
theorem begin_edit (m : runTUIModel) (key : String) (i : Nat) (p : runParam)
    (hbrowse : m.editingParameter = false)
    (hk1 : key.utf8ByteSize = 1) (hk2 : isAlnumKey key = true)
    (hsel : m.selectedParameter = (i : Int))
    (hp : m.runParams.get? i = some p)
    (hbuf : m.editValue = [])
    (hseed : p.value = "" → p.valueOptions ≠ []) :
    m.Update (.keyMsg key) = some ({ m with
      editingParameter := true,
      parameterParts := if p.paramType.splitOn ≠ "" then
          some ((if p.value = "" then p.valueOptions.headD "" else p.value).splitOn
            p.paramType.splitOn)
        else m.parameterParts,
      editValue := key.data,
      cursorPosition := 1 }, false) := by
  have hne : ∀ s : String, s.utf8ByteSize ≠ 1 → key ≠ s := fun s hs h => hs (h ▸ hk1)
  have htn : m.selectedParameter.toNat = i := by rw [hsel]; simp
  have hsneg : ¬ m.selectedParameter < 0 := by rw [hsel]; simp
  have hdata : key.length = 1 := data_length_of_utf8ByteSize_one key hk1
  show (if m.editingParameter = true then _ else _) = _
  rw [if_neg (by simp [hbrowse]),
    if_neg (not_or.mpr ⟨hne "ctrl+c" (by decide), hne "esc" (by decide)⟩),
    if_neg (hne "enter" (by decide)),
    if_neg (by
      push_neg
      exact ⟨hne "left" (by decide), hne "up" (by decide), hne "shift+tab" (by decide)⟩),
    if_neg (by
      push_neg
      exact ⟨hne "right" (by decide), hne "down" (by decide), hne "tab" (by decide)⟩),
    if_pos ⟨hk1, hk2⟩, if_neg hsneg, htn, hp]
  by_cases hv : p.value = ""
  · obtain ⟨o, os, ho⟩ : ∃ o os, p.valueOptions = o :: os := by
      cases hoo : p.valueOptions with
      | nil => exact absurd hoo (hseed hv)
      | cons o os => exact ⟨o, os, rfl⟩
    simp only [hv, ho, if_pos rfl]
    simp only [List.get?]
    simp [hbuf, hdata]
  · simp only [if_neg hv]
    simp [hbuf, hdata, hv]

/-- Witness for C6: pressing `x` on a parameter with empty value enters
Editing with the buffer holding exactly `x` and the cursor at 1. -/
theorem begin_edit_witness :
    c6Model.Update (.keyMsg "x") = some ({ c6Model with
      editingParameter := true,
      parameterParts := none,
      editValue := ['x'],
      cursorPosition := 1 }, false) := by
  have h := begin_edit c6Model "x" 0
    { paramType := nameParam, value := "", valueOptions := ["alpine-test"] }
    (by rfl) (by decide) (by decide) (by rfl) (by rfl) (by rfl) (by decide)
  rw [h]
  rfl

/-- C8: selection wraparound. In Browsing mode, a previous-navigation key at
index 0 selects the last index and a next-navigation key at the last index
selects 0, while all other navigation steps move the selection by exactly
one; confirm-and-advance (`tab` in editing mode) on the last parameter
wraps the selection to 0. -/
theorem selection_wraparound (m : runTUIModel) (hne : m.runParams ≠ []) :
    (∀ key, m.editingParameter = false → (key = "left" ∨ key = "up" ∨ key = "shift+tab") →
      m.selectedParameter = 0 →
      m.Update (.keyMsg key) =
        some ({ m with selectedParameter := (m.runParams.length : Int) - 1 }, false)) ∧
    (∀ key, m.editingParameter = false → (key = "right" ∨ key = "down" ∨ key = "tab") →
      m.selectedParameter = (m.runParams.length : Int) - 1 →
      m.Update (.keyMsg key) = some ({ m with selectedParameter := 0 }, false)) ∧
    (∀ key, m.editingParameter = false → (key = "left" ∨ key = "up" ∨ key = "shift+tab") →
      0 < m.selectedParameter →
      m.Update (.keyMsg key) =
        some ({ m with selectedParameter := m.selectedParameter - 1 }, false)) ∧
    (∀ key, m.editingParameter = false → (key = "right" ∨ key = "down" ∨ key = "tab") →
      m.selectedParameter < (m.runParams.length : Int) - 1 →
      m.Update (.keyMsg key) =
        some ({ m with selectedParameter := m.selectedParameter + 1 }, false)) ∧
    (∀ (i : Nat) (p : runParam), m.editingParameter = true →
      m.selectedParameter = (i : Int) →
      ((i : Int)) = (m.runParams.length : Int) - 1 →
      m.runParams.get? i = some p →
      (p.paramType.splitOn = "" →
        (m.Update (.keyMsg "tab")).map (fun r => (r.1.selectedParameter, r.2)) =
          some (0, false)) ∧
      (∀ parts : List String, p.paramType.splitOn ≠ "" → m.parameterParts = some parts →
        p.paramType.editableIndex < parts.length →
        (m.Update (.keyMsg "tab")).map (fun r => (r.1.selectedParameter, r.2)) =
          some (0, false))) := by
  have hlen : 0 < m.runParams.length := List.length_pos.mpr hne
  refine ⟨?_, ?_, ?_, ?_, ?_⟩
  · rintro key hb hk h0
    show (if m.editingParameter = true then _ else _) = _
    rw [if_neg (by simp [hb]) ]
    rcases hk with rfl | rfl | rfl <;>
      rw [if_neg (by decide), if_neg (by decide), if_pos (by decide),
        if_neg (by rw [h0]; omega)]
  · rintro key hb hk hlast
    show (if m.editingParameter = true then _ else _) = _
    rw [if_neg (by simp [hb])]
    rcases hk with rfl | rfl | rfl <;>
      rw [if_neg (by decide), if_neg (by decide), if_neg (by decide),
        if_pos (by decide), if_neg (by rw [hlast]; omega)]
  · rintro key hb hk h0
    show (if m.editingParameter = true then _ else _) = _
    rw [if_neg (by simp [hb])]
    rcases hk with rfl | rfl | rfl <;>
      rw [if_neg (by decide), if_neg (by decide), if_pos (by decide), if_pos h0]
  · rintro key hb hk hlt
    show (if m.editingParameter = true then _ else _) = _
    rw [if_neg (by simp [hb])]
    rcases hk with rfl | rfl | rfl <;>
      rw [if_neg (by decide), if_neg (by decide), if_neg (by decide),
        if_pos (by decide), if_pos hlt]
  · rintro i p hedit hsel hlast hp
    have htn : m.selectedParameter.toNat = i := by rw [hsel]; simp
    have hsneg : ¬ m.selectedParameter < 0 := by rw [hsel]; simp
    have hnotlt : ¬ (m.selectedParameter < (m.runParams.length : Int) - 1) := by
      rw [hsel, hlast]; omega
    constructor
    · intro hso
      simp only [runTUIModel.Update, if_pos hedit]
      rw [if_neg hsneg, htn, hp]
      simp only [hso]
      simp only [if_neg hnotlt]
      simp
    · rintro parts hso hparts hidx
      simp only [runTUIModel.Update, if_pos hedit]
      rw [if_neg hsneg, htn, hp]
      simp only [hparts, if_pos hidx]
      rw [if_pos hso]
      simp only [if_neg hnotlt]
      simp

/-- Witness for C8: with two parameters, previous from index 0 wraps to
index 1, next from index 1 wraps to index 0, and confirm-and-advance on the
last parameter wraps the selection to index 0. -/
theorem selection_wraparound_witness :
    c8Browse0.Update (.keyMsg "left") =
      some ({ c8Browse0 with
        selectedParameter := (c8Browse0.runParams.length : Int) - 1 }, false) ∧
    c8Browse1.Update (.keyMsg "right") = some ({ c8Browse1 with selectedParameter := 0 }, false) ∧
    (c8Edit1.Update (.keyMsg "tab")).map (fun r => (r.1.selectedParameter, r.2)) =
      some (0, false) :=
  ⟨(selection_wraparound c8Browse0 (by decide)).1 "left" (by rfl) (Or.inl rfl) (by rfl),
   (selection_wraparound c8Browse1 (by decide)).2.1 "right" (by rfl) (Or.inl rfl) (by decide),
   ((selection_wraparound c8Edit1 (by decide)).2.2.2.2 1 c8ParamB (by rfl) (by decide)
     (by decide) (by rfl)).1 (by rfl)⟩

/-- C10: totality precondition of `Update`. With an empty parameter list a
previous-navigation key in Browsing sets the selection to -1 and an
alphanumeric key panics (out-of-bounds index); with an empty candidate list
begin-edit on an empty value panics; under the precondition that the
parameter list is non-empty, every candidate list is non-empty and the
selection is in range, every Browsing-mode key event succeeds and keeps the
selection in range. -/
theorem update_totality_precondition :
    (∀ m : runTUIModel, m.editingParameter = false → m.runParams = [] →
      m.selectedParameter = 0 →
      m.Update (.keyMsg "left") = some ({ m with selectedParameter := -1 }, false)) ∧
    (∀ m : runTUIModel, m.editingParameter = false → m.runParams = [] →
      m.selectedParameter = 0 →
      m.Update (.keyMsg "a") = none) ∧
    (∀ (m : runTUIModel) (i : Nat) (p : runParam), m.editingParameter = false →
      m.selectedParameter = (i : Int) → m.runParams.get? i = some p →
      p.value = "" → p.valueOptions = [] →
      m.Update (.keyMsg "a") = none) ∧
    (∀ (m : runTUIModel) (key : String), m.editingParameter = false →
      m.runParams ≠ [] → (∀ p ∈ m.runParams, p.valueOptions ≠ []) →
      0 ≤ m.selectedParameter → m.selectedParameter < (m.runParams.length : Int) →
      ∃ m' q, m.Update (.keyMsg key) = some (m', q) ∧
        0 ≤ m'.selectedParameter ∧ m'.selectedParameter < (m'.runParams.length : Int)) := by
  refine ⟨?_, ?_, ?_, ?_⟩
  · intro m hb he h0
    simp only [runTUIModel.Update, hb, he, h0]
    simp
  · intro m hb he h0
    simp only [runTUIModel.Update, hb, h0]
    rw [if_pos (by decide : ("a".utf8ByteSize = 1 ∧ isAlnumKey "a" = true))]
    simp [he]
  · intro m i p hb hsel hp hv ho
    have htn : m.selectedParameter.toNat = i := by rw [hsel]; simp
    have hsneg : ¬ m.selectedParameter < 0 := by rw [hsel]; simp
    simp only [runTUIModel.Update, hb]
    rw [if_pos (by decide : ("a".utf8ByteSize = 1 ∧ isAlnumKey "a" = true)),
      if_neg hsneg, htn, hp]
    simp [hv, ho]
  · intro m key hb hne hopts h0 hlen
    have hl : 0 < m.runParams.length := List.length_pos.mpr hne
    simp only [runTUIModel.Update, hb]
    rw [if_neg Bool.false_ne_true]
    by_cases h1 : key = "ctrl+c" ∨ key = "esc"
    · rw [if_pos h1]
      exact ⟨m, true, rfl, h0, hlen⟩
    rw [if_neg h1]
    by_cases h2 : key = "enter"
    · rw [if_pos h2]
      exact ⟨m, true, rfl, h0, hlen⟩
    rw [if_neg h2]
    by_cases h3 : key = "left" ∨ key = "up" ∨ key = "shift+tab"
    · rw [if_pos h3]
      by_cases hgt : 0 < m.selectedParameter
      · rw [if_pos hgt]
        refine ⟨_, false, rfl, ?_, ?_⟩ <;> simp <;> omega
      · rw [if_neg hgt]
        refine ⟨_, false, rfl, ?_, ?_⟩ <;> simp <;> omega
    rw [if_neg h3]
    by_cases h4 : key = "right" ∨ key = "down" ∨ key = "tab"
    · rw [if_pos h4]
      by_cases hlt : m.selectedParameter < (m.runParams.length : Int) - 1
      · rw [if_pos hlt]
        refine ⟨_, false, rfl, ?_, ?_⟩ <;> simp <;> omega
      · rw [if_neg hlt]
        refine ⟨_, false, rfl, ?_, ?_⟩ <;> simp <;> omega
    rw [if_neg h4]
    by_cases h5 : key.utf8ByteSize = 1 ∧ isAlnumKey key = true
    · rw [if_pos h5]
      rw [if_neg (by omega : ¬ m.selectedParameter < 0)]
      obtain ⟨p, hp⟩ : ∃ p, m.runParams.get? m.selectedParameter.toNat = some p := by
        exact ⟨_, List.get?_eq_some.mpr ⟨by omega, rfl⟩⟩
      rw [hp]
      have hpmem : p ∈ m.runParams := List.get?_mem hp
      by_cases hv : p.value = ""
      · obtain ⟨o, os, ho⟩ : ∃ o os, p.valueOptions = o :: os := by
          cases hoo : p.valueOptions with
          | nil => exact absurd hoo (hopts p hpmem)
          | cons o os => exact ⟨o, os, rfl⟩
        simp only [hv, ho, reduceIte, List.get?]
        refine ⟨_, false, rfl, ?_, ?_⟩ <;> simp <;> omega
      · simp only [if_neg hv]
        refine ⟨_, false, rfl, ?_, ?_⟩ <;> simp <;> omega
    · rw [if_neg h5]
      exact ⟨m, false, rfl, h0, hlen⟩

/-- Witness for C10: with the empty catalog a previous key yields selection
-1 and an alphanumeric key panics; with an empty candidate list begin-edit
panics; under the precondition a Browsing-mode key event succeeds. -/
theorem update_totality_precondition_witness :
    c10Empty.Update (.keyMsg "left") = some ({ c10Empty with selectedParameter := -1 }, false) ∧
    c10Empty.Update (.keyMsg "a") = none ∧
    c10NoCand.Update (.keyMsg "a") = none ∧
    ∃ m' q, c8Browse0.Update (.keyMsg "q") = some (m', q) ∧
      0 ≤ m'.selectedParameter ∧ m'.selectedParameter < (m'.runParams.length : Int) :=
  ⟨update_totality_precondition.1 c10Empty (by rfl) (by rfl) (by rfl),
   update_totality_precondition.2.1 c10Empty (by rfl) (by rfl) (by rfl),
   update_totality_precondition.2.2.1 c10NoCand 0
     { paramType := nameParam, value := "", valueOptions := [] }
     (by rfl) (by rfl) (by rfl) (by rfl) (by rfl),
   update_totality_precondition.2.2.2 c8Browse0 "q" (by rfl) (by decide) (by decide)
     (by decide) (by decide)⟩

/-- C4 counterexample: immediately after construction for image `alpine`
the first parameter's value is `"alpine-test"`, not empty: `initialModel`
pre-seeds every value with its first candidate. -/
theorem initial_values_counterexample :
    ((initialModel { Image := "alpine" }).runParams.map (fun p => p.value)) =
      ["alpine-test", "8080:80", "/bin/ash"] ∧
    ("alpine-test" : String) ≠ "" := ⟨by decide, by decide⟩

/-- C4 (amended): immediately after the model is constructed for a chosen
image, every parameter's value is pre-seeded to its first candidate (hence
non-empty, with the default in effect), the selected index is 0 and the
mode is Browsing. -/
theorem initial_state (copts : containerOptions) :
    (initialModel copts).selectedParameter = 0 ∧
    (initialModel copts).editingParameter = false ∧
    ∀ p ∈ (initialModel copts).runParams,
      p.value = p.valueOptions.headD "" ∧ p.value ≠ "" := by
  refine ⟨rfl, rfl, ?_⟩
  show ∀ p ∈ (getParamOptions copts.Image).map _, _
  unfold getParamOptions
  by_cases h1 : copts.Image = "alpine"
  · rw [if_pos h1]; decide
  · rw [if_neg h1]
    by_cases h2 : copts.Image = "postgres"
    · rw [if_pos h2]; decide
    · rw [if_neg h2]; simp

/-- Witness for C4 (amended): for image `alpine`, the selection starts at 0
and the first parameter is seeded with its first candidate. -/
theorem initial_state_witness :
    (initialModel { Image := "alpine" }).selectedParameter = 0 ∧
    ({ paramType := nameParam, value := "alpine-test",
       valueOptions := ["alpine-test", "evenCoolerName"] } : runParam).value =
      (["alpine-test", "evenCoolerName"] : List String).headD "" := by
  refine ⟨(initial_state { Image := "alpine" }).1, ?_⟩
  exact ((initial_state { Image := "alpine" }).2.2
    { paramType := nameParam, value := "alpine-test",
      valueOptions := ["alpine-test", "evenCoolerName"] } (by decide)).1

theorem stripAnsiAux_length_le (l : List Char) : ∀ b, (stripAnsiAux b l).length ≤ l.length := by
  induction l with
  | nil => intro b; cases b <;> simp [stripAnsiAux]
  | cons c rest ih =>
    intro b
    cases b with
    | true =>
      simp only [stripAnsiAux]
      split <;> exact le_trans (ih _) (Nat.le_succ _)
    | false =>
      simp only [stripAnsiAux]
      split
      · exact le_trans (ih _) (Nat.le_succ _)
      · simpa using ih false

theorem displayWidth_le (s : String) : displayWidth s ≤ s.length :=
  stripAnsiAux_length_le s.data false

/-- C3 (amended): the renderer wraps with the line-continuation separator
when the raw assembled string — ANSI color codes included — exceeds 80
characters, and renders a single space-joined line when that raw string is
at most 80 characters; since stripping codes only shortens the string, a
command wider than 80 display columns is always wrapped, but the
single-line case is guaranteed only for the raw length, not for display
columns. -/
theorem line_wrapping (m : runTUIModel) (parts : List String)
    (herr : m.err = none) (hparts : commandParts m = some parts) :
    (80 < displayWidth (String.intercalate " " parts) →
      m.View = some (String.intercalate contSep parts ++ footerLegend m)) ∧
    ((String.intercalate " " parts).length ≤ 80 →
      m.View = some (String.intercalate " " parts ++ footerLegend m)) := by
  constructor
  · intro hw
    have hlen : 80 < (String.intercalate " " parts).length :=
      lt_of_lt_of_le hw (displayWidth_le _)
    simp only [runTUIModel.View, herr, hparts]
    rw [if_pos hlen]
  · intro hlen
    simp only [runTUIModel.View, herr, hparts]
    rw [if_neg (by omega)]

/-- C3 counterexample: a model whose assembled command is 71 display
columns wide — under 80 — is nevertheless rendered with continuation
separators, because the code compares the raw length including ANSI color
codes (89 characters here) against 80. -/
theorem line_wrapping_counterexample :
    displayWidth (String.intercalate " " ((commandParts c3Model).getD [])) < 80 ∧
    c3Model.View ≠
      some (String.intercalate " " ((commandParts c3Model).getD []) ++ footerLegend c3Model) :=
  ⟨by decide, by decide⟩

/-- Witness for C3 (amended): a 111-column command is wrapped; a short one
is joined by single spaces on one line. -/
theorem line_wrapping_witness :
    c3Long.View =
      some (String.intercalate contSep ((commandParts c3Long).getD []) ++ footerLegend c3Long) ∧
    c3Short.View =
      some (String.intercalate " " ((commandParts c3Short).getD []) ++ footerLegend c3Short) := by
  constructor
  · exact (line_wrapping c3Long _ rfl (by rfl)).1 (by decide)
  · exact (line_wrapping c3Short _ rfl (by rfl)).2 (by decide)

/-- C7: the commit step after the event loop runs only when the model's
terminal error is unset: if the error is set, the flag set and both option
structures are returned exactly as given — no field is mutated — together
with the error; if it is unset, the committer folds every parameter and
flag into the external structures exactly once. -/
theorem committer_all_or_nothing (m : runTUIModel) (fl : FlagSet) (r : runOptions)
    (c : containerOptions) :
    (∀ e, m.err = some e → runTUIFinish m fl r c = (fl, r, c, some e)) ∧
    (m.err = none → runTUIFinish m fl r c =
      (let rc := m.runParams.foldl (fun rc p => commitParam p rc) (r, c)
       let frc := m.runFlags.foldl (fun s f => commitFlag f s) (fl, rc.1, rc.2)
       (frc.1, frc.2.1, frc.2.2, none))) := by
  constructor
  · intro e he
    simp [runTUIFinish, he]
  · intro he
    simp [runTUIFinish, he]

/-- Witness for C7: with the terminal error set nothing is written and the
error is returned; with it unset the committer output is produced. -/
theorem committer_all_or_nothing_witness :
    runTUIFinish c7ErrModel {} {} { Image := "alpine" } =
      ({}, {}, { Image := "alpine" }, some "terminal failure") ∧
    runTUIFinish c7OkModel {} {} { Image := "alpine" } =
      (let rc := c7OkModel.runParams.foldl (fun rc p => commitParam p rc)
        ({}, { Image := "alpine" })
       let frc := c7OkModel.runFlags.foldl (fun s f => commitFlag f s) ({}, rc.1, rc.2)
       (frc.1, frc.2.1, frc.2.2, none)) :=
  ⟨(committer_all_or_nothing c7ErrModel {} {} { Image := "alpine" }).1 "terminal failure" rfl,
   (committer_all_or_nothing c7OkModel {} {} { Image := "alpine" }).2 rfl⟩

/-- C9: committer totality. Each of the five catalog parameter types is
dispatched to exactly one external setter receiving the parameter's value —
name and entrypoint assign a field, volume, env and port append to their
lists — and each boolean flag sets its option field to true and records
itself as explicitly set in the flag set. -/
theorem committer_totality :
    (∀ (p : runParam) (r : runOptions) (c : containerOptions),
      (p.paramType = nameParam → commitParam p (r, c) = ({ r with name := p.value }, c)) ∧
      (p.paramType = volumeParam →
        commitParam p (r, c) = (r, { c with volumes := c.volumes ++ [p.value] })) ∧
      (p.paramType = entrypointParam →
        commitParam p (r, c) = (r, { c with entrypoint := p.value })) ∧
      (p.paramType = envVarParam →
        commitParam p (r, c) = (r, { c with env := c.env ++ [p.value] })) ∧
      (p.paramType = portParam →
        commitParam p (r, c) = (r, { c with publish := c.publish ++ [p.value] }))) ∧
    (∀ (fl : FlagSet) (r : runOptions) (c : containerOptions),
      commitFlag detachFlag (fl, r, c) =
        ({ fl with setCalls := fl.setCalls ++ [(detachFlag, "true")] },
          { r with detach := true }, c) ∧
      commitFlag interactiveFlag (fl, r, c) =
        ({ fl with setCalls := fl.setCalls ++ [(interactiveFlag, "true")] },
          r, { c with stdin := true }) ∧
      commitFlag ttyFlag (fl, r, c) =
        ({ fl with setCalls := fl.setCalls ++ [(ttyFlag, "true")] },
          r, { c with tty := true })) := by
  constructor
  · intro p r c
    refine ⟨fun h => ?_, fun h => ?_, fun h => ?_, fun h => ?_, fun h => ?_⟩ <;>
      simp [commitParam, h, nameParam, volumeParam, entrypointParam, envVarParam, portParam]
  · intro fl r c
    refine ⟨?_, ?_, ?_⟩ <;>
      simp [commitFlag, detachFlag, interactiveFlag, ttyFlag]

/-- Witness for C9: the name-parameter and detach-flag equations at
concrete parameters and option structures. -/
theorem committer_totality_witness :
    commitParam { paramType := nameParam, value := "myName", valueOptions := ["myName"] }
      ({}, { Image := "alpine" }) =
      ({ name := "myName" }, { Image := "alpine" }) ∧
    commitFlag detachFlag ({}, {}, { Image := "alpine" }) =
      ({ setCalls := [(detachFlag, "true")] }, { detach := true }, { Image := "alpine" }) := by
  refine ⟨?_, ?_⟩
  · exact (committer_totality.1
      { paramType := nameParam, value := "myName", valueOptions := ["myName"] }
      {} { Image := "alpine" }).1 rfl
  · exact (committer_totality.2 {} {} { Image := "alpine" }).1
